import Mathlib

/-!
Verification development for the `differential-privacy` TypeScript library.

Shallow embedding conventions:
* `Decimal` values (decimal.js configured as arbitrary precision) are modelled
  as exact rationals `ℚ`; the infinite values `Decimal(±Infinity)` and `NaN`
  that arise in the sensitivity estimator are modelled by the inductive `DecE`.
* Promises are modelled as already-resolved values: a sensitive function is a
  plain function, a fallible one returns `Except`.
* The iterator protocol (`Iterator<DATASET | undefined>`) is modelled by
  `SubsetIter`: the `n`-th call of `next()` returns a pair
  `(value? : Option DS, done : Bool)`, together with an index at which `done`
  is guaranteed, so that the pull loop of `calculateSensitivity` terminates.
* `laplaceProbDistribution` is parametrised by the value drawn from
  `Decimal.random()` and lives over `ℝ` (it uses a logarithm);
  note that decimal.js's `Decimal.log` with a single argument is the
  base-10 logarithm, which the embedding reproduces with `Real.logb 10`.
-/

/-- Extended decimal values: decimal.js numbers including `NaN` and `±Infinity`
(`new Decimal(Number.POSITIVE_INFINITY)` etc.), finite values being exact
rationals. -/
inductive DecE where
  | nan
  | negInf
  | fin (q : ℚ)
  | posInf
deriving DecidableEq, Repr

/-- `Decimal.min` on extended values (NaN propagates, infinities compare as
usual). -/
def decMin : DecE → DecE → DecE
  | DecE.nan, _ => DecE.nan
  | _, DecE.nan => DecE.nan
  | DecE.negInf, _ => DecE.negInf
  | _, DecE.negInf => DecE.negInf
  | DecE.posInf, y => y
  | x, DecE.posInf => x
  | DecE.fin a, DecE.fin b => DecE.fin (min a b)

/-- `Decimal.max` on extended values. -/
def decMax : DecE → DecE → DecE
  | DecE.nan, _ => DecE.nan
  | _, DecE.nan => DecE.nan
  | DecE.posInf, _ => DecE.posInf
  | _, DecE.posInf => DecE.posInf
  | DecE.negInf, y => y
  | x, DecE.negInf => x
  | DecE.fin a, DecE.fin b => DecE.fin (max a b)

/-- `Decimal.minus` on extended values (`(-∞) - (+∞) = -∞`,
`(±∞) - (±∞) = NaN`, as in decimal.js / IEEE). -/
def decSub : DecE → DecE → DecE
  | DecE.nan, _ => DecE.nan
  | _, DecE.nan => DecE.nan
  | DecE.negInf, DecE.negInf => DecE.nan
  | DecE.posInf, DecE.posInf => DecE.nan
  | DecE.negInf, _ => DecE.negInf
  | DecE.posInf, _ => DecE.posInf
  | DecE.fin _, DecE.negInf => DecE.posInf
  | DecE.fin _, DecE.posInf => DecE.negInf
  | DecE.fin a, DecE.fin b => DecE.fin (a - b)

/-- The `(index, value)` pairs visited by `Array.prototype.forEach`,
starting from index `k`. -/
def forEachIdx {EL : Type} : List EL → ℕ → List (ℕ × EL)
  | [], _ => []
  | a :: t, k => (k, a) :: forEachIdx t (k + 1)

/-- `ArrayView<EL>` from `src/datastructures.ts`, represented by its
observable behaviour: the list of `(index, value)` pairs that `forEach`
visits (in order), and the `get` accessor. `map` is derived from `forEachL`
exactly as the source derives it from `forEach`. -/
structure ArrayView (EL : Type) where
  forEachL : List (ℕ × EL)
  get : ℕ → Option EL

/-- `view.map(callback)` (the callback receives value and index). -/
def viewMap {EL NT : Type} (v : ArrayView EL) (f : ℕ → EL → NT) : List NT :=
  v.forEachL.map (fun p => f p.1 p.2)

/-- The values visited by `forEach`, in order. -/
def viewValues {EL : Type} (v : ArrayView EL) : List EL :=
  v.forEachL.map Prod.snd

/-- `newArrayView(srcArray)`: forEach visits `(i, srcArray[i])` in order,
`get(i)` is plain indexing. -/
def newArrayView {EL : Type} (srcArray : List EL) : ArrayView EL :=
  { forEachL := forEachIdx srcArray 0
    get := fun index => srcArray.get? index }

/-- `newIgnoreIndexArrayView(srcArray, ignoreIndex)`: forEach/map skip
`ignoreIndex` and renumber later indices down by one; `get` skips over the
ignored index by shifting reads at or past it up by one. -/
def newIgnoreIndexArrayView {EL : Type} (srcArray : ArrayView EL) (ignoreIndex : ℕ) :
    ArrayView EL :=
  { forEachL := srcArray.forEachL.filterMap (fun p =>
      if p.1 = ignoreIndex then none
      else some ((if ignoreIndex ≤ p.1 then p.1 - 1 else p.1), p.2))
    get := fun index => srcArray.get (if index < ignoreIndex then index else index + 1) }

/-- The shadow-iteration object: the `n`-th call of `next()` yields
`(value?, done)`.  `bound` is an index at which `done` is `true`, making the
pull loop of `calculateSensitivity` well defined (the TS loop would otherwise
never terminate). -/
structure SubsetIter (DS : Type) where
  next : ℕ → Option DS × Bool
  bound : ℕ
  bound_done : (next bound).2 = true

/-- `newArrayViewSubsetIterator(dataset)` from `src/datastructures.ts`:
takes one snapshot copy `dataCopy = dataset.map(el => el)`; the `i`-th call of
`next()` returns `done = i >= dataCopy.length - 1` and
`value = i >= dataCopy.length ? undefined : newIgnoreIndexArrayView(copy, i)`.
Note the last shadow view (index `length - 1`) is delivered together with
`done = true`. -/
def newArrayViewSubsetIterator {EL : Type} (dataset : ArrayView EL) :
    SubsetIter (ArrayView EL) :=
  let dataCopy := viewValues dataset
  let datasetCopy := newArrayView dataCopy
  { next := fun index =>
      (if index < dataCopy.length then some (newIgnoreIndexArrayView datasetCopy index)
       else none,
       decide (dataCopy.length - 1 ≤ index))
    bound := dataCopy.length - 1
    bound_done := by simp }

/-- First index `≥ start` at which `f` is true, searching at most `fuel`
steps (returns the last searched index if the search runs out). -/
def firstDoneFrom (f : ℕ → Bool) : ℕ → ℕ → ℕ
  | start, 0 => start
  | start, Nat.succ fuel => if f start then start else firstDoneFrom f (start + 1) fuel

/-- The index of the pull at which the estimator's loop observes
`done = true` and breaks (the loop processes this pull's value first). -/
def sensStop {DS : Type} (it : SubsetIter DS) : ℕ :=
  firstDoneFrom (fun i => (it.next i).2) 0 it.bound

/-- All non-absent shadow datasets the estimator's loop pulls and schedules:
every pull up to and including the one that carries `done = true`. -/
def sensProcessed {DS : Type} (it : SubsetIter DS) : List DS :=
  (List.range (sensStop it + 1)).filterMap (fun i => (it.next i).1)

/-- Resolve a list of scheduled evaluations: collect all results, or
propagate the first rejection (in scheduling order). -/
def exceptMapList {α β ε : Type} (func : α → Except ε β) : List α → Except ε (List β)
  | [] => Except.ok []
  | a :: t =>
    match func a with
    | Except.error e => Except.error e
    | Except.ok b =>
      match exceptMapList func t with
      | Except.error e => Except.error e
      | Except.ok bs => Except.ok (b :: bs)

/-- Running minimum accumulated from `minOutput = new Decimal(+Infinity)`. -/
def minFold (outputs : List ℚ) : DecE :=
  outputs.foldl (fun acc q => decMin acc (DecE.fin q)) DecE.posInf

/-- Running maximum accumulated from `maxOutput = new Decimal(-Infinity)`. -/
def maxFold (outputs : List ℚ) : DecE :=
  outputs.foldl (fun acc q => decMax acc (DecE.fin q)) DecE.negInf

/-- `calculateSensitivity` from `src/sensitivity.ts`.  The loop pulls
`datasetIter.next()`, schedules `runOnModifiedDataset` on each pulled value
(skipping `undefined`), accumulates the running min/max of the results, and
breaks after the pull whose `done` flag is set; finally it returns
`maxOutput.minus(minOutput)`.  The min/max accumulation is commutative, so the
value does not depend on the completion order of the concurrent evaluations;
the concurrency clamp `Math.max(1, Math.min(maxConcurrencyCount, 9999))`
only bounds in-flight evaluations (modelled separately by
`sensLoopMaxPending`).  A rejecting evaluation propagates instead. -/
def calculateSensitivity {DS ε : Type} (func : DS → Except ε ℚ)
    (newSubsetIter : DS → SubsetIter DS) (dataset : DS)
    (maxConcurrencyCount : ℚ) : Except ε DecE :=
  let _concurrency := max 1 (min maxConcurrencyCount 9999)
  let datasetIter := newSubsetIter dataset
  match exceptMapList func (sensProcessed datasetIter) with
  | Except.error e => Except.error e
  | Except.ok outputs => Except.ok (decSub (maxFold outputs) (minFold outputs))

/-- `sumFunction` from `tests/util.ts`: `forEach`-accumulated sum. -/
def sumFunction (elements : ArrayView ℚ) : ℚ :=
  elements.forEachL.foldl (fun s p => s + p.2) 0

/-- `KeyValueView<VAL>` from `src/datastructures.ts`, represented by the
`(key, value)` pairs visited by `forEach` (for-in order) and the `get`
accessor (JS property access, `undefined` when absent). -/
structure KeyValueView (VAL : Type) where
  forEachL : List (String × VAL)
  get : String → Option VAL

/-- `view.map(callback)` on a key-value view. -/
def kvMap {VAL NT : Type} (v : KeyValueView VAL) (f : String → VAL → NT) : List NT :=
  v.forEachL.map (fun p => f p.1 p.2)

/-- `newKeyValueView(srcKeyVals)`: forEach visits each entry,
`get(key)` is property access. -/
def newKeyValueView {VAL : Type} (srcKeyVals : List (String × VAL)) : KeyValueView VAL :=
  { forEachL := srcKeyVals
    get := fun index => srcKeyVals.lookup index }

/-- `newIgnoreKeyKeyValueView(srcKV, ignoreKey)`: `forEach` and `map` skip
the ignored key; `get` delegates directly to `srcKV.get` with no
exclusion applied. -/
def newIgnoreKeyKeyValueView {VAL : Type} (srcKV : KeyValueView VAL) (ignoreKey : String) :
    KeyValueView VAL :=
  { forEachL := srcKV.forEachL.filter (fun p => p.1 != ignoreKey)
    get := fun index => srcKV.get index }

/-- A JavaScript value as seen by the untyped option validation
(`util.isNumber` / `util.isFunction` checks). -/
inductive JsVal where
  | undef
  | num (q : ℚ)
  | bool (b : Bool)
  | fn
  | str (s : String)
deriving DecidableEq, Repr

/-- `util.isNumber`. -/
def isNumber : JsVal → Bool
  | JsVal.num _ => true
  | _ => false

/-- `util.isFunction`. -/
def isFunction : JsVal → Bool
  | JsVal.fn => true
  | _ => false

/-- The numeric value of a `JsVal`, when it is a number. -/
def jsNumVal : JsVal → Option ℚ
  | JsVal.num q => some q
  | _ => none

/-- The options object handed to `privatize`, before validation. -/
structure RawOptions where
  maxEpsilon : JsVal
  newShadowIterator : JsVal
  maxCallCount : JsVal
  maxConcurrentCalls : JsVal
  debugDangerously : JsVal
deriving DecidableEq, Repr

/-- The `parsed` record produced by a successful `validateOptions`. -/
structure ValidatedOptions where
  maxEpsilon : ℚ
  maxCallCount : Option ℚ
  maxConcurrentCalls : Option ℚ
  debugDangerously : Bool
deriving DecidableEq, Repr

/-- One optional count field is rejected when it is supplied
(`!== undefined`) and is not a number or is `< 1`
(source: `if (!isNumber(v) || v < 1) throw`). -/
def badOptionalCount : JsVal → Bool
  | JsVal.undef => false
  | JsVal.num q => decide (q < 1)
  | _ => true

/-- `validateOptions` from `src/privatize.ts`: throws (synchronously, at
factory-build time) on a missing or non-positive `maxEpsilon`, a missing or
non-function `newShadowIterator`, or a supplied `maxCallCount` /
`maxConcurrentCalls` that is not a number or is below 1.  Note the source
performs no integrality check on the count fields, despite its own
`"valid integer >= 1"` error messages. -/
def validateOptions (options : RawOptions) : Except String ValidatedOptions :=
  match jsNumVal options.maxEpsilon with
  | none => Except.error "maxEpsilon must be a number > 0"
  | some eps =>
    if eps ≤ 0 then Except.error "maxEpsilon must be a number > 0"
    else if !(isFunction options.newShadowIterator) then
      Except.error "Must provide a newShadowIterator function, please see docs"
    else if badOptionalCount options.maxCallCount then
      Except.error "Please get a valid integer >= 1 for maxCallCount"
    else if badOptionalCount options.maxConcurrentCalls then
      Except.error "Please give a valid integer >= 1 for maxConcurrentCalls"
    else Except.ok
      { maxEpsilon := eps
        maxCallCount := jsNumVal options.maxCallCount
        maxConcurrentCalls := jsNumVal options.maxConcurrentCalls
        debugDangerously := options.debugDangerously = JsVal.bool true }

/-- The numeric configuration after `fillDefaultOptions`. -/
structure FilledOptions where
  maxEpsilon : ℚ
  maxCallCount : ℚ
  maxConcurrentCalls : ℚ
  debugDangerously : Bool
deriving DecidableEq, Repr

/-- `fillDefaultOptions`: `maxCallCount` defaults to 1,
`maxConcurrentCalls` defaults to 4. -/
def fillDefaultOptions (v : ValidatedOptions) : FilledOptions :=
  { maxEpsilon := v.maxEpsilon
    maxCallCount := v.maxCallCount.getD 1
    maxConcurrentCalls := v.maxConcurrentCalls.getD 4
    debugDangerously := v.debugDangerously }

/-- The result object assembled by a successful invocation; the dangerous
debug pair `(privateResult, noiseAdded)` is present only when
`debugDangerously` is set. -/
structure PrivateResult where
  result : ℚ
  epsilonBudgetUsed : ℚ
  percentBudgetUsed : ℚ
  debugFields : Option (ℚ × ℚ)
deriving DecidableEq, Repr

/-- The ways an invocation of the privatized function can reject. -/
inductive InvokeError (ε : Type) where
  | budgetExceeded
  | propagated (e : ε)
deriving DecidableEq, Repr

/-- The fixed per-call epsilon `maxEpsilon.dividedBy(maxCallCount)`. -/
def perCallEpsilon (opts : FilledOptions) : ℚ :=
  opts.maxEpsilon / opts.maxCallCount

/-- One invocation of the handle returned by `privatizeFactory(probDistFunc)`
(`src/privatize.ts`): it first debits the per-call epsilon into
`epsilonSoFar`, then throws `PrivacyBudgetExceededError` if the debited total
exceeds `maxEpsilon`, then awaits `calculateSensitivity`, then evaluates the
sensitive function on the original dataset, then adds the drawn noise and
assembles the result.  The state component (the new `epsilonSoFar`) is
returned in both the success and the error case: the TS closure mutates
`epsilonSoFar` before anything can throw. -/
def invokeOnce {DS ε : Type} (opts : FilledOptions) (producer : DS → SubsetIter DS)
    (func : DS → Except ε ℚ) (probDistFunc : DecE → ℚ → ℚ)
    (epsilonSoFar : ℚ) (dataset : DS) :
    ℚ × Except (InvokeError ε) PrivateResult :=
  let epsilon := perCallEpsilon opts
  let spent := epsilonSoFar + epsilon
  if opts.maxEpsilon < spent then
    (spent, Except.error InvokeError.budgetExceeded)
  else
    match calculateSensitivity func producer dataset opts.maxConcurrentCalls with
    | Except.error e => (spent, Except.error (InvokeError.propagated e))
    | Except.ok sensitivity =>
      match func dataset with
      | Except.error e => (spent, Except.error (InvokeError.propagated e))
      | Except.ok sensitiveResult =>
        let noise := probDistFunc sensitivity epsilon
        (spent, Except.ok
          { result := sensitiveResult + noise
            epsilonBudgetUsed := epsilon
            percentBudgetUsed := 1 / opts.maxCallCount
            debugFields :=
              if opts.debugDangerously then some (sensitiveResult, noise) else none })

/-- Successive invocations of one handle: the mutable `epsilonSoFar` is
threaded through; each entry of the output records the counter value after
that call together with the call's outcome. -/
def runCalls {DS ε : Type} (opts : FilledOptions) (producer : DS → SubsetIter DS)
    (func : DS → Except ε ℚ) (probDistFunc : DecE → ℚ → ℚ) :
    ℚ → List DS → List (ℚ × Except (InvokeError ε) PrivateResult)
  | _, [] => []
  | s, d :: ds =>
    let r := invokeOnce opts producer func probDistFunc s d
    r :: runCalls opts producer func probDistFunc r.1 ds

/-- The concurrency clamp at the top of `calculateSensitivity`:
`Math.max(1, Math.min(maxConcurrencyCount, 9999))`. -/
def concurrencyOf (maxConcurrencyCount : ℕ) : ℕ :=
  max 1 (min maxConcurrencyCount 9999)

/-- Step model of the estimator's pull-then-launch loop, tracking the number
of outstanding (`pendingCalculations`) evaluations.  Each of the `iters` loop
iterations schedules one evaluation; if that brings the in-flight count to
the clamp, the loop awaits the oldest pending evaluation — during that
suspension the environment `env` decides how many evaluations complete (at
least the awaited oldest one, at most all outstanding).  The returned value
is the largest in-flight count observed at any instant between suspension
points; after the loop only `Promise.all` remains, during which the count
only decreases from `pending`. -/
def sensLoopMaxPending (concurrency : ℕ) (env : ℕ → ℕ) :
    ℕ → ℕ → ℕ → ℕ
  | 0, _, pending => pending
  | Nat.succ iters, j, pending =>
    let scheduled := pending + 1
    if concurrency ≤ scheduled then
      let completed := min scheduled (max 1 (env j))
      max scheduled (sensLoopMaxPending concurrency env iters (j + 1) (scheduled - completed))
    else
      max scheduled (sensLoopMaxPending concurrency env iters j scheduled)

/-- `laplaceProbDistribution(sensitivity, epsilon)` from `src/laplace.ts`,
parametrised by the value `rand` drawn from `Decimal.random()` (uniform in
`[0, 1)`): `scale = sensitivity / epsilon`,
`symmetricRandom = rand - 0.5`, `sign = symmetricRandom > 0 ? 1 : -1`, and the
return value is `scale * sign * Decimal.log(1 - 2 * |symmetricRandom|)`.
decimal.js's `Decimal.log` with one argument is the *base-10* logarithm
(natural log would be `Decimal.ln`), so the embedding uses `Real.logb 10`. -/
noncomputable def laplaceProbDistribution (sensitivity epsilon rand : ℝ) : ℝ :=
  let scale := sensitivity / epsilon
  let symmetricRandom := rand - 1/2
  let sign : ℝ := if 0 < symmetricRandom then 1 else -1
  scale * sign * Real.logb 10 (1 - 2 * |symmetricRandom|)

/-- Modelled from the spec (§4.3 Laplace Noise Mechanism): the claimed
return value `scale * sign * ln(1 - 2*|u|)` for the drawn
`u ∈ (-0.5, 0.5)`, with `sign = +1 if u > 0 else -1` — the inverse-CDF
sampling formula with the *natural* logarithm. -/
noncomputable def laplaceSpecFormula (sensitivity epsilon u : ℝ) : ℝ :=
  (sensitivity / epsilon) * (if 0 < u then (1 : ℝ) else -1) * Real.log (1 - 2 * |u|)

/-- A trivial shadow producer over `Unit` that yields exactly one shadow
dataset, delivered together with the end-of-iteration flag (used as a
concrete witness iterator). -/
def constUnitIter : Unit → SubsetIter Unit :=
  fun _ => { next := fun _ => (some (), true), bound := 0, bound_done := rfl }

/-- Decidable equality of `Except` results, for evaluating the embedding on
concrete inputs. -/
instance {ε α : Type} [DecidableEq ε] [DecidableEq α] : DecidableEq (Except ε α) :=
  fun x y =>
    match x, y with
    | Except.error a, Except.error b =>
      decidable_of_iff (a = b)
        ⟨fun h => congrArg Except.error h, fun h => by injection h⟩
    | Except.ok a, Except.ok b =>
      decidable_of_iff (a = b)
        ⟨fun h => congrArg Except.ok h, fun h => by injection h⟩
    | Except.error _, Except.ok _ => isFalse (fun h => Except.noConfusion h)
    | Except.ok _, Except.error _ => isFalse (fun h => Except.noConfusion h)

/-! ### Helper lemmas -/

theorem forEachIdx_map_snd {EL : Type} : ∀ (l : List EL) (k : ℕ),
    (forEachIdx l k).map Prod.snd = l
  | [], _ => rfl
  | _ :: t, k => by simp [forEachIdx, forEachIdx_map_snd t (k + 1)]

theorem viewValues_newArrayView {EL : Type} (src : List EL) :
    viewValues (newArrayView src) = src := by
  simp [viewValues, newArrayView, forEachIdx_map_snd]


theorem forEachIdx_filterMap_drop {EL : Type} (ig : ℕ) (src : List EL) : ∀ (k : ℕ),
    (forEachIdx src k).filterMap
        (fun p => if p.1 = ig then none else some p.2) =
      if ig < k then src else src.eraseIdx (ig - k) := by
  induction src with
  | nil => intro k; by_cases h : ig < k <;> simp [forEachIdx, h]
  | cons a t ih =>
    intro k
    simp only [forEachIdx, List.filterMap_cons]
    rcases Nat.lt_trichotomy k ig with hki | hki | hki
    · have hne : k ≠ ig := Nat.ne_of_lt hki
      simp only [hne, if_false, ih (k + 1), if_neg (by omega : ¬ ig < k + 1),
        if_neg (by omega : ¬ ig < k)]
      have h2 : ig - k = (ig - (k + 1)) + 1 := by omega
      rw [h2, List.eraseIdx_cons_succ]
    · subst hki
      simp [ih (k + 1), if_pos (Nat.lt_succ_self k),
        if_neg (Nat.lt_irrefl k), Nat.sub_self, List.eraseIdx_cons_zero]
    · have hne : k ≠ ig := Nat.ne_of_gt hki
      simp only [hne, if_false, ih (k + 1), if_pos (by omega : ig < k + 1), if_pos hki]

theorem viewValues_ignoreIndex {EL : Type} (src : List EL) (ig : ℕ) :
    viewValues (newIgnoreIndexArrayView (newArrayView src) ig) = src.eraseIdx ig := by
  have h := forEachIdx_filterMap_drop ig src 0
  rw [if_neg (Nat.not_lt_zero ig), Nat.sub_zero] at h
  simp only [viewValues, newIgnoreIndexArrayView, newArrayView, List.map_filterMap]
  rw [← h]
  have hfun : (fun (p : ℕ × EL) => Option.map Prod.snd
      (if p.1 = ig then none
       else some ((if ig ≤ p.1 then p.1 - 1 else p.1), p.2))) =
      fun p => if p.1 = ig then none else some p.2 := by
    funext p
    by_cases hp : p.1 = ig <;> simp [hp]
  rw [hfun]

theorem foldl_add_snd (l : List (ℕ × ℚ)) : ∀ (s : ℚ),
    l.foldl (fun acc p => acc + p.2) s = s + (l.map Prod.snd).sum := by
  induction l with
  | nil => intro s; simp
  | cons a t ih => intro s; simp [ih, add_assoc]

theorem sumFunction_eq_values_sum (v : ArrayView ℚ) :
    sumFunction v = (viewValues v).sum := by
  simp [sumFunction, viewValues, foldl_add_snd]

theorem eraseIdx_replicate_of_lt {EL : Type} (x : EL) :
    ∀ (n i : ℕ), i < n → (List.replicate n x).eraseIdx i = List.replicate (n - 1) x := by
  intro n
  induction n with
  | zero => intro i h; exact absurd h (Nat.not_lt_zero i)
  | succ m ih =>
    intro i h
    cases i with
    | zero => simp [List.replicate_succ]
    | succ j =>
      have hj : j < m := Nat.lt_of_succ_lt_succ h
      have hm : 1 ≤ m := Nat.lt_of_le_of_lt (Nat.zero_le j) hj
      simp only [List.replicate_succ, List.eraseIdx_cons_succ, ih j hj, Nat.succ_sub_one]
      cases m with
      | zero => omega
      | succ l => simp [List.replicate_succ]

theorem sum_replicate_one (k : ℕ) : (List.replicate k (1 : ℚ)).sum = k := by
  simp [List.sum_replicate]

theorem firstDoneFrom_eq (f : ℕ → Bool) (k : ℕ) :
    ∀ (fuel start : ℕ), start ≤ k → k ≤ start + fuel → f k = true →
    (∀ m, start ≤ m → m < k → f m = false) → firstDoneFrom f start fuel = k := by
  intro fuel
  induction fuel with
  | zero =>
    intro start h1 h2 _ _
    have h3 : start = k := Nat.le_antisymm h1 (by omega)
    simpa [firstDoneFrom] using h3
  | succ n ih =>
    intro start h1 h2 hk hlt
    by_cases hs : f start = true
    · have hsk : start = k := by
        by_contra hne
        have hcon : start < k := Nat.lt_of_le_of_ne h1 hne
        have := hlt start (Nat.le_refl start) hcon
        rw [hs] at this
        cases this
      subst hsk
      simp [firstDoneFrom, hs]
    · have hne : start ≠ k := fun hcon => by rw [hcon, hk] at hs; exact hs rfl
      have h1s : start + 1 ≤ k := by omega
      have hsf : f start = false := Bool.eq_false_iff.mpr hs
      simp only [firstDoneFrom, hsf, Bool.false_eq_true, if_false]
      exact ih (start + 1) h1s (by omega) hk (fun m hm hmk => hlt m (by omega) hmk)

theorem filterMap_if_lt {γ : Type} (n : ℕ) (g : ℕ → γ) :
    ∀ (l : List ℕ), (∀ x ∈ l, x < n) →
    l.filterMap (fun i => if i < n then some (g i) else none) = l.map g := by
  intro l
  induction l with
  | nil => intro _; rfl
  | cons a t ih =>
    intro h
    have ha : a < n := h a (List.mem_cons_self a t)
    simp only [List.filterMap_cons, if_pos ha, List.map_cons,
      ih (fun x hx => h x (List.mem_cons_of_mem a hx))]

theorem arrayIter_next {EL : Type} (src : List EL) (i : ℕ) :
    (newArrayViewSubsetIterator (newArrayView src)).next i =
      (if i < src.length then some (newIgnoreIndexArrayView (newArrayView src) i)
       else none,
       decide (src.length - 1 ≤ i)) := by
  simp only [newArrayViewSubsetIterator, viewValues_newArrayView]

theorem arrayIter_bound {EL : Type} (src : List EL) :
    (newArrayViewSubsetIterator (newArrayView src)).bound = src.length - 1 := by
  simp only [newArrayViewSubsetIterator, viewValues_newArrayView]

theorem sensStop_array {EL : Type} (src : List EL) :
    sensStop (newArrayViewSubsetIterator (newArrayView src)) = src.length - 1 := by
  unfold sensStop
  rw [arrayIter_bound]
  apply firstDoneFrom_eq
  · exact Nat.zero_le _
  · omega
  · rw [arrayIter_next]; simp
  · intro m _ hmk
    rw [arrayIter_next]
    simp only [decide_eq_false_iff_not]
    omega

theorem sensProcessed_array {EL : Type} (src : List EL) (h : 1 ≤ src.length) :
    sensProcessed (newArrayViewSubsetIterator (newArrayView src)) =
      (List.range src.length).map
        (fun i => newIgnoreIndexArrayView (newArrayView src) i) := by
  unfold sensProcessed
  rw [sensStop_array]
  have hlen : src.length - 1 + 1 = src.length := by omega
  rw [hlen]
  have hfun : (fun i => ((newArrayViewSubsetIterator (newArrayView src)).next i).1) =
      fun i => if i < src.length
               then some (newIgnoreIndexArrayView (newArrayView src) i) else none := by
    funext i
    rw [arrayIter_next]
  rw [hfun, filterMap_if_lt]
  exact fun x hx => List.mem_range.mp hx

theorem exceptMapList_pure {α β ε : Type} (f : α → β) :
    ∀ (l : List α),
    exceptMapList (fun a => (Except.ok (f a) : Except ε β)) l = Except.ok (l.map f) := by
  intro l
  induction l with
  | nil => rfl
  | cons a t ih => simp [exceptMapList, ih]

theorem calculateSensitivity_pure {DS ε : Type} (f : DS → ℚ)
    (producer : DS → SubsetIter DS) (d : DS) (conc : ℚ) :
    calculateSensitivity (fun x => (Except.ok (f x) : Except ε ℚ)) producer d conc =
      Except.ok (decSub (maxFold ((sensProcessed (producer d)).map f))
                        (minFold ((sensProcessed (producer d)).map f))) := by
  unfold calculateSensitivity
  simp only [exceptMapList_pure]

theorem foldl_decMin_replicate : ∀ (k : ℕ) (x c : ℚ),
    List.foldl (fun acc q => decMin acc (DecE.fin q)) (DecE.fin x) (List.replicate k c) =
      DecE.fin (if k = 0 then x else min x c) := by
  intro k
  induction k with
  | zero => intro x c; simp
  | succ m ih =>
    intro x c
    rw [List.replicate_succ, List.foldl_cons,
      show decMin (DecE.fin x) (DecE.fin c) = DecE.fin (min x c) from rfl, ih]
    by_cases hm : m = 0 <;> simp [hm, min_assoc]

theorem foldl_decMax_replicate : ∀ (k : ℕ) (x c : ℚ),
    List.foldl (fun acc q => decMax acc (DecE.fin q)) (DecE.fin x) (List.replicate k c) =
      DecE.fin (if k = 0 then x else max x c) := by
  intro k
  induction k with
  | zero => intro x c; simp
  | succ m ih =>
    intro x c
    rw [List.replicate_succ, List.foldl_cons,
      show decMax (DecE.fin x) (DecE.fin c) = DecE.fin (max x c) from rfl, ih]
    by_cases hm : m = 0 <;> simp [hm, max_assoc]

theorem minFold_cons_replicate (a c : ℚ) (k : ℕ) :
    minFold (a :: List.replicate k c) = DecE.fin (if k = 0 then a else min a c) := by
  unfold minFold
  rw [List.foldl_cons, show decMin DecE.posInf (DecE.fin a) = DecE.fin a from rfl,
    foldl_decMin_replicate]

theorem maxFold_cons_replicate (a c : ℚ) (k : ℕ) :
    maxFold (a :: List.replicate k c) = DecE.fin (if k = 0 then a else max a c) := by
  unfold maxFold
  rw [List.foldl_cons, show decMax DecE.negInf (DecE.fin a) = DecE.fin a from rfl,
    foldl_decMax_replicate]

theorem invokeOnce_fst {DS ε : Type} (opts : FilledOptions) (producer : DS → SubsetIter DS)
    (func : DS → Except ε ℚ) (probDistFunc : DecE → ℚ → ℚ) (s : ℚ) (d : DS) :
    (invokeOnce opts producer func probDistFunc s d).1 = s + perCallEpsilon opts := by
  simp only [invokeOnce]
  split
  · rfl
  · split
    · rfl
    · split
      · rfl
      · rfl

theorem invokeOnce_exceeded {DS ε : Type} (opts : FilledOptions)
    (producer : DS → SubsetIter DS) (func : DS → Except ε ℚ)
    (probDistFunc : DecE → ℚ → ℚ) (s : ℚ) (d : DS)
    (h : opts.maxEpsilon < s + perCallEpsilon opts) :
    invokeOnce opts producer func probDistFunc s d =
      (s + perCallEpsilon opts, Except.error InvokeError.budgetExceeded) := by
  unfold invokeOnce
  rw [if_pos h]

theorem invokeOnce_exceeded_iff {DS ε : Type} (opts : FilledOptions)
    (producer : DS → SubsetIter DS) (func : DS → Except ε ℚ)
    (probDistFunc : DecE → ℚ → ℚ) (s : ℚ) (d : DS) :
    (invokeOnce opts producer func probDistFunc s d).2 =
        Except.error InvokeError.budgetExceeded ↔
      opts.maxEpsilon < s + perCallEpsilon opts := by
  constructor
  · intro h
    by_contra hb
    simp only [invokeOnce, if_neg hb] at h
    cases hcs : calculateSensitivity func producer d opts.maxConcurrentCalls with
    | error e => rw [hcs] at h; simp at h
    | ok sv =>
      rw [hcs] at h
      cases hfd : func d with
      | error e => rw [hfd] at h; simp at h
      | ok q => rw [hfd] at h; simp at h
  · intro h
    rw [invokeOnce_exceeded opts producer func probDistFunc s d h]

theorem invokeOnce_pure_ok {DS ε : Type} (opts : FilledOptions)
    (producer : DS → SubsetIter DS) (f : DS → ℚ) (probDistFunc : DecE → ℚ → ℚ)
    (s : ℚ) (d : DS) (hbudget : ¬ opts.maxEpsilon < s + perCallEpsilon opts) :
    ∃ r : PrivateResult,
      (invokeOnce opts producer (fun x => (Except.ok (f x) : Except ε ℚ))
          probDistFunc s d).2 = Except.ok r ∧
      r.epsilonBudgetUsed = perCallEpsilon opts ∧
      r.percentBudgetUsed = 1 / opts.maxCallCount := by
  simp only [invokeOnce, if_neg hbudget, calculateSensitivity_pure]
  exact ⟨_, rfl, rfl, rfl⟩

theorem runCalls_get? {DS ε : Type} (opts : FilledOptions) (producer : DS → SubsetIter DS)
    (func : DS → Except ε ℚ) (probDistFunc : DecE → ℚ → ℚ) :
    ∀ (ds : List DS) (s : ℚ) (i : ℕ),
    (runCalls opts producer func probDistFunc s ds).get? i =
      (ds.get? i).map
        (fun d => invokeOnce opts producer func probDistFunc
          (s + i * perCallEpsilon opts) d) := by
  intro ds
  induction ds with
  | nil => intro s i; simp [runCalls]
  | cons d t ih =>
    intro s i
    cases i with
    | zero => simp [runCalls]
    | succ j =>
      simp only [runCalls, List.get?_cons_succ]
      rw [invokeOnce_fst, ih]
      have harg : s + perCallEpsilon opts + (j : ℚ) * perCallEpsilon opts =
          s + ((j + 1 : ℕ) : ℚ) * perCallEpsilon opts := by
        push_cast
        ring
      simp only [harg]

/-! ### Claim theorems -/

/-- C2 counterexample: on the empty array dataset (zero shadow datasets
produced) `calculateSensitivity` returns *negative* infinity
(`maxOutput - minOutput = (-∞) - (+∞) = -∞`), not positive infinity as the
claim states. -/
theorem emptyDataset_sensitivity_is_negInf :
    calculateSensitivity (fun v => (Except.ok (sumFunction v) : Except Unit ℚ))
      newArrayViewSubsetIterator (newArrayView ([] : List ℚ)) 1 =
      Except.ok DecE.negInf ∧
    DecE.negInf ≠ DecE.posInf := by
  constructor
  · decide
  · decide

/-- C2 (amended): for every sensitive function and every shadow-view producer
that yields zero shadow datasets (every pulled item is absent),
`calculateSensitivity` returns negative infinity — a value of infinite
magnitude, though not `+infinity`. -/
theorem zeroShadows_sensitivity_infinite_magnitude {DS ε : Type}
    (func : DS → Except ε ℚ) (producer : DS → SubsetIter DS) (d : DS) (conc : ℚ)
    (h : ∀ i, ((producer d).next i).1 = none) :
    calculateSensitivity func producer d conc = Except.ok DecE.negInf := by
  have hproc : sensProcessed (producer d) = [] := by
    unfold sensProcessed
    exact List.filterMap_eq_nil_iff.mpr (fun a _ => h a)
  simp only [calculateSensitivity]
  rw [hproc]
  rfl

/-- C2 witness: the empty array adapter is a concrete producer yielding zero
shadow datasets, and the amended theorem applies to it. -/
theorem zeroShadows_sensitivity_witness :
    (∀ i, ((newArrayViewSubsetIterator (newArrayView ([] : List ℚ))).next i).1 = none) ∧
    calculateSensitivity (fun _ => (Except.ok (0 : ℚ) : Except Unit ℚ))
      newArrayViewSubsetIterator (newArrayView ([] : List ℚ)) 4 =
      Except.ok DecE.negInf := by
  have hnone :
      ∀ i, ((newArrayViewSubsetIterator (newArrayView ([] : List ℚ))).next i).1 = none := by
    intro i
    rw [arrayIter_next]
    simp
  exact ⟨hnone,
    zeroShadows_sensitivity_infinite_magnitude _ newArrayViewSubsetIterator _ 4 hnone⟩

/-- C10: for every string-keyed mapping containing key `k`, the shadow view
that excludes `k` hides `k` from `forEach` and `map`, but its `get k` still
returns the excluded identity's value, because `get` delegates to the
underlying snapshot without applying the key exclusion. -/
theorem ignoreKey_hides_forEach_but_get_leaks {VAL : Type}
    (src : List (String × VAL)) (k : String) (v : VAL)
    (h : (newKeyValueView src).get k = some v) :
    (∀ p ∈ (newIgnoreKeyKeyValueView (newKeyValueView src) k).forEachL, p.1 ≠ k) ∧
    (∀ (NT : Type) (f : String → VAL → NT),
      kvMap (newIgnoreKeyKeyValueView (newKeyValueView src) k) f =
        (src.filter (fun p => p.1 != k)).map (fun p => f p.1 p.2)) ∧
    (newIgnoreKeyKeyValueView (newKeyValueView src) k).get k = some v := by
  refine ⟨?_, ?_, h⟩
  · intro p hp
    have := List.of_mem_filter hp
    simpa using this
  · intro NT f
    rfl

/-- C10 witness: concrete two-entry mapping, excluding key `"a"`. -/
theorem ignoreKey_witness :
    (newKeyValueView [("a", (1 : ℚ)), ("b", 2)]).get "a" = some 1 ∧
    ((∀ p ∈ (newIgnoreKeyKeyValueView
          (newKeyValueView [("a", (1 : ℚ)), ("b", 2)]) "a").forEachL, p.1 ≠ "a") ∧
     (∀ (NT : Type) (f : String → ℚ → NT),
       kvMap (newIgnoreKeyKeyValueView (newKeyValueView [("a", (1 : ℚ)), ("b", 2)]) "a") f =
         ([("a", (1 : ℚ)), ("b", 2)].filter (fun p => p.1 != "a")).map
           (fun p => f p.1 p.2)) ∧
     (newIgnoreKeyKeyValueView (newKeyValueView [("a", (1 : ℚ)), ("b", 2)]) "a").get "a" =
       some 1) :=
  ⟨rfl, ignoreKey_hides_forEach_but_get_leaks [("a", (1 : ℚ)), ("b", 2)] "a" 1 rfl⟩

/-- C8: `validateOptions` accepts a supplied non-integer `maxCallCount`
(here `1.5`), returning a parsed options record instead of raising the
configuration error the claim requires for non-integer counts (the source
checks only `isNumber` and `>= 1`, never integrality, contradicting its own
`"valid integer >= 1"` error message). -/
theorem validateOptions_accepts_noninteger_maxCallCount :
    validateOptions
      { maxEpsilon := JsVal.num 1, newShadowIterator := JsVal.fn,
        maxCallCount := JsVal.num (3 / 2), maxConcurrentCalls := JsVal.undef,
        debugDangerously := JsVal.undef } =
      Except.ok
        { maxEpsilon := 1, maxCallCount := some (3 / 2),
          maxConcurrentCalls := none, debugDangerously := false } ∧
    ¬ ∃ z : ℤ, ((3 : ℚ) / 2) = z := by
  constructor
  · norm_num [validateOptions, jsNumVal, isFunction, badOptionalCount]
    decide
  · rintro ⟨z, hz⟩
    have h1 : (1 : ℚ) < z := by rw [← hz]; norm_num
    have h2 : (z : ℚ) < 2 := by rw [← hz]; norm_num
    have h1z : (1 : ℤ) < z := by exact_mod_cast h1
    have h2z : z < 2 := by exact_mod_cast h2
    omega

/-- Bound on the step model of the estimator loop: if the in-flight count is
strictly below the clamp at loop entry, it never exceeds the clamp. -/
theorem sensLoopMaxPending_le (c : ℕ) (env : ℕ → ℕ) :
    ∀ (iters j pending : ℕ), pending + 1 ≤ c →
    sensLoopMaxPending c env iters j pending ≤ c := by
  intro iters
  induction iters with
  | zero =>
    intro j p hp
    simp only [sensLoopMaxPending]
    omega
  | succ m ih =>
    intro j p hp
    simp only [sensLoopMaxPending]
    by_cases hc : c ≤ p + 1
    · rw [if_pos hc]
      apply max_le hp
      apply ih
      have h1 : 1 ≤ min (p + 1) (max 1 (env j)) :=
        le_min (by omega) (le_max_left _ _)
      omega
    · rw [if_neg hc]
      apply max_le hp
      apply ih
      omega

/-- C6: for every concurrency cap `C ≥ 1`, every completion environment and
every number of loop iterations, at no instant between suspension points are
more than `C` sensitive-function evaluations outstanding: the estimator's
pull-then-launch loop awaits the oldest pending evaluation whenever the
in-flight count reaches the (clamped) cap. -/
theorem concurrencyCap_respected (C : ℕ) (hC : 1 ≤ C) (env : ℕ → ℕ) (iters : ℕ) :
    sensLoopMaxPending (concurrencyOf C) env iters 0 0 ≤ C := by
  have h1 : concurrencyOf C ≤ C := by
    unfold concurrencyOf
    omega
  have h2 : 1 ≤ concurrencyOf C := le_max_left 1 _
  exact le_trans (sensLoopMaxPending_le (concurrencyOf C) env iters 0 0 (by omega)) h1

/-- C6 witness: cap 2, five shadow datasets, environment completing one
evaluation per await. -/
theorem concurrencyCap_witness :
    (1 : ℕ) ≤ 2 ∧ sensLoopMaxPending (concurrencyOf 2) (fun _ => 1) 5 0 0 ≤ 2 :=
  ⟨by decide, concurrencyCap_respected 2 (by decide) (fun _ => 1) 5⟩

/-- C7: with sensitivity 1, epsilon 1 and `Decimal.random() = 0.95`
(`u = 0.45`), the code returns `-1` because decimal.js's `Decimal.log` is the
base-10 logarithm (`log10(0.1) = -1`), whereas the spec's formula
`scale * sign * ln(1 - 2*|u|)` evaluates to `ln(0.1) ≈ -2.3026 ≠ -1`: the
implementation uses the wrong logarithm base for the Laplace inverse-CDF
sample. -/
theorem laplace_uses_base10_log :
    laplaceProbDistribution 1 1 (19 / 20) = -1 ∧
    laplaceSpecFormula 1 1 (9 / 20) ≠ -1 := by
  constructor
  · simp only [laplaceProbDistribution]
    rw [if_pos (by norm_num : (0 : ℝ) < 19 / 20 - 1 / 2),
      abs_of_pos (by norm_num : (0 : ℝ) < 19 / 20 - 1 / 2),
      show (1 : ℝ) - 2 * (19 / 20 - 1 / 2) = (10 : ℝ)⁻¹ by norm_num,
      Real.logb_inv, Real.logb_self_eq_one (by norm_num)]
    norm_num
  · intro hcon
    simp only [laplaceSpecFormula] at hcon
    rw [if_pos (by norm_num : (0 : ℝ) < 9 / 20),
      abs_of_pos (by norm_num : (0 : ℝ) < 9 / 20),
      show (1 : ℝ) - 2 * (9 / 20) = (10 : ℝ)⁻¹ by norm_num,
      Real.log_inv] at hcon
    have hlog : Real.log 10 = 1 := by
      have : (1 : ℝ) / 1 * 1 * -Real.log 10 = -1 := hcon
      linarith
    have hexp : Real.exp 1 = 10 := by
      rw [← hlog, Real.exp_log]
      norm_num
    have hlt := Real.exp_one_lt_d9
    rw [hexp] at hlt
    norm_num at hlt

/-- Max-minus-min of a constant output list is zero. -/
theorem decSub_fold_replicate (k : ℕ) (hk : 1 ≤ k) (c : ℚ) :
    decSub (maxFold (List.replicate k c)) (minFold (List.replicate k c)) = DecE.fin 0 := by
  obtain ⟨m, rfl⟩ : ∃ m, k = m + 1 := ⟨k - 1, by omega⟩
  rw [List.replicate_succ, minFold_cons_replicate, maxFold_cons_replicate]
  by_cases hm : m = 0 <;> simp [hm, decSub, min_self, max_self, sub_self]

/-- Max-minus-min of a head value followed by a constant tail. -/
theorem decSub_fold_cons_replicate (a c : ℚ) (k : ℕ) (hk : 1 ≤ k) :
    decSub (maxFold (a :: List.replicate k c)) (minFold (a :: List.replicate k c)) =
      DecE.fin (max a c - min a c) := by
  rw [minFold_cons_replicate, maxFold_cons_replicate]
  have hk0 : ¬ k = 0 := by omega
  simp [hk0, decSub]

/-- Sensitivity of the forEach-sum over an all-ones array of length `n ≥ 1`
is exactly 0. -/
theorem sensitivity_sum_all_ones (n : ℕ) (hn : 1 ≤ n) (conc : ℚ) :
    calculateSensitivity (fun v => (Except.ok (sumFunction v) : Except Unit ℚ))
      newArrayViewSubsetIterator (newArrayView (List.replicate n (1 : ℚ))) conc =
      Except.ok (DecE.fin 0) := by
  rw [calculateSensitivity_pure]
  congr 1
  have hlen : (List.replicate n (1 : ℚ)).length = n := List.length_replicate n 1
  rw [sensProcessed_array _ (by rw [hlen]; exact hn), List.map_map]
  have hcong : ∀ i ∈ List.range (List.replicate n (1 : ℚ)).length,
      (sumFunction ∘ fun j => newIgnoreIndexArrayView
        (newArrayView (List.replicate n (1 : ℚ))) j) i = ((n - 1 : ℕ) : ℚ) := by
    intro i hi
    have hi2 : i < n := by
      have := List.mem_range.mp hi
      omega
    simp only [Function.comp_apply]
    rw [sumFunction_eq_values_sum, viewValues_ignoreIndex,
      eraseIdx_replicate_of_lt 1 n i hi2, sum_replicate_one]
  rw [List.map_congr_left hcong, List.map_const', List.length_range, hlen]
  exact decSub_fold_replicate n hn _

/-- Sensitivity of the forEach-sum over an all-ones array with one element
swapped to zero (length `m + 1 ≥ 2`) is exactly 1. -/
theorem sensitivity_sum_one_zero (m : ℕ) (hm : 1 ≤ m) (conc : ℚ) :
    calculateSensitivity (fun v => (Except.ok (sumFunction v) : Except Unit ℚ))
      newArrayViewSubsetIterator (newArrayView ((0 : ℚ) :: List.replicate m 1)) conc =
      Except.ok (DecE.fin 1) := by
  rw [calculateSensitivity_pure]
  congr 1
  have hlen : ((0 : ℚ) :: List.replicate m 1).length = m + 1 := by simp
  rw [sensProcessed_array _ (by rw [hlen]; omega), List.map_map, hlen,
    List.range_succ_eq_map, List.map_cons, List.map_map]
  have hhead : (sumFunction ∘ fun j => newIgnoreIndexArrayView
      (newArrayView ((0 : ℚ) :: List.replicate m 1)) j) 0 = (m : ℚ) := by
    simp only [Function.comp_apply]
    rw [sumFunction_eq_values_sum, viewValues_ignoreIndex, List.eraseIdx_cons_zero,
      sum_replicate_one]
  have htail : ∀ i ∈ List.range m,
      ((sumFunction ∘ fun j => newIgnoreIndexArrayView
        (newArrayView ((0 : ℚ) :: List.replicate m 1)) j) ∘ Nat.succ) i =
      ((m - 1 : ℕ) : ℚ) := by
    intro i hi
    have hi2 : i < m := List.mem_range.mp hi
    simp only [Function.comp_apply]
    rw [sumFunction_eq_values_sum, viewValues_ignoreIndex, List.eraseIdx_cons_succ,
      eraseIdx_replicate_of_lt 1 m i hi2, List.sum_cons, sum_replicate_one, zero_add]
  rw [hhead, List.map_congr_left htail, List.map_const', List.length_range,
    decSub_fold_cons_replicate _ _ m hm]
  have hle : ((m - 1 : ℕ) : ℚ) ≤ (m : ℚ) := by exact_mod_cast Nat.sub_le m 1
  rw [max_eq_left hle, min_eq_right hle, Nat.cast_sub hm]
  norm_num

/-- C4: `calculateSensitivity` returns `max - min` over the sensitive
function's outputs on all yielded shadow datasets (for any pure sensitive
function, producer, dataset and concurrency cap); in particular the
forEach-sum over an all-ones array with one element swapped to zero has
sensitivity exactly 1, and over an unmodified all-ones array exactly 0. -/
theorem sensitivity_is_max_minus_min (n m : ℕ) (hn : 1 ≤ n) (hm : 1 ≤ m)
    (conc conc2 : ℚ) :
    (∀ (DS ε : Type) (f : DS → ℚ) (producer : DS → SubsetIter DS) (d : DS) (c : ℚ),
      calculateSensitivity (fun x => (Except.ok (f x) : Except ε ℚ)) producer d c =
        Except.ok (decSub (maxFold ((sensProcessed (producer d)).map f))
                          (minFold ((sensProcessed (producer d)).map f)))) ∧
    calculateSensitivity (fun v => (Except.ok (sumFunction v) : Except Unit ℚ))
      newArrayViewSubsetIterator (newArrayView (List.replicate n (1 : ℚ))) conc =
      Except.ok (DecE.fin 0) ∧
    calculateSensitivity (fun v => (Except.ok (sumFunction v) : Except Unit ℚ))
      newArrayViewSubsetIterator (newArrayView ((0 : ℚ) :: List.replicate m 1)) conc2 =
      Except.ok (DecE.fin 1) :=
  ⟨fun _ _ f producer d c => calculateSensitivity_pure f producer d c,
   sensitivity_sum_all_ones n hn conc,
   sensitivity_sum_one_zero m hm conc2⟩

/-- C4 witness: all-ones array of length 3 gives sensitivity 0; swapping one
element to zero (length 3) gives sensitivity 1. -/
theorem sensitivity_is_max_minus_min_witness :
    (1 : ℕ) ≤ 3 ∧ (1 : ℕ) ≤ 2 ∧
    calculateSensitivity (fun v => (Except.ok (sumFunction v) : Except Unit ℚ))
      newArrayViewSubsetIterator (newArrayView (List.replicate 3 (1 : ℚ))) 4 =
      Except.ok (DecE.fin 0) ∧
    calculateSensitivity (fun v => (Except.ok (sumFunction v) : Except Unit ℚ))
      newArrayViewSubsetIterator (newArrayView ((0 : ℚ) :: List.replicate 2 1)) 4 =
      Except.ok (DecE.fin 1) :=
  ⟨by decide, by decide,
   (sensitivity_is_max_minus_min 3 2 (by decide) (by decide) 4 4).2.1,
   (sensitivity_is_max_minus_min 3 2 (by decide) (by decide) 4 4).2.2⟩

/-- C5: the array reference adapter delivers its last shadow view together
with `done = true` (dual signal), and the estimator's loop still processes
that final value: the processed list is all `length` shadow views, and the
output list fed to the min/max accumulation contains the final shadow's
output at position `length - 1`. -/
theorem dualSignal_final_value_processed (src : List ℚ) (h : 1 ≤ src.length)
    (f : ArrayView ℚ → ℚ) :
    ((newArrayViewSubsetIterator (newArrayView src)).next (src.length - 1)).2 = true ∧
    ((newArrayViewSubsetIterator (newArrayView src)).next (src.length - 1)).1 =
      some (newIgnoreIndexArrayView (newArrayView src) (src.length - 1)) ∧
    sensProcessed (newArrayViewSubsetIterator (newArrayView src)) =
      (List.range src.length).map
        (fun i => newIgnoreIndexArrayView (newArrayView src) i) ∧
    ((sensProcessed (newArrayViewSubsetIterator (newArrayView src))).map f).get?
        (src.length - 1) =
      some (f (newIgnoreIndexArrayView (newArrayView src) (src.length - 1))) := by
  refine ⟨?_, ?_, sensProcessed_array src h, ?_⟩
  · rw [arrayIter_next]
    simp
  · rw [arrayIter_next]
    exact if_pos (by omega)
  · rw [sensProcessed_array src h, List.map_map, List.get?_map,
      List.get?_range (by omega : src.length - 1 < src.length)]
    rfl

/-- C5 witness: on the three-element array the final (third) shadow view
arrives with the end flag and its sum output is present in the outputs. -/
theorem dualSignal_witness :
    (1 : ℕ) ≤ ([1, 2, 3] : List ℚ).length ∧
    ((sensProcessed (newArrayViewSubsetIterator
        (newArrayView ([1, 2, 3] : List ℚ)))).map sumFunction).get? 2 =
      some (sumFunction (newIgnoreIndexArrayView (newArrayView ([1, 2, 3] : List ℚ)) 2)) :=
  ⟨by decide,
   (dualSignal_final_value_processed [1, 2, 3] (by decide) sumFunction).2.2.2⟩

/-- The budget check on the `(i+1)`-th invocation (spent so far `i` per-call
epsilons) trips exactly when `i + 1` exceeds `maxCallCount`. -/
theorem budget_check_iff (E : ℚ) (hE : 0 < E) (k : ℕ) (hk : 1 ≤ k) (i : ℕ) :
    (E < 0 + (i : ℚ) * (E / (k : ℚ)) + E / (k : ℚ)) ↔ k < i + 1 := by
  have hk0 : (0 : ℚ) < (k : ℚ) := by exact_mod_cast Nat.lt_of_lt_of_le Nat.zero_lt_one hk
  rw [zero_add]
  have h1 : (i : ℚ) * (E / (k : ℚ)) + E / (k : ℚ) = ((i : ℚ) + 1) * E / (k : ℚ) := by
    ring
  rw [h1, lt_div_iff hk0, mul_comm ((i : ℚ) + 1) E, mul_lt_mul_left hE]
  constructor
  · intro h
    exact_mod_cast h
  · intro h
    exact_mod_cast h

/-- C1: for a valid configuration with `maxCallCount = k` and
`maxEpsilon = E > 0`, the handle succeeds on exactly the first `k`
invocations — every later invocation raises `PrivacyBudgetExceeded` — and
every successful result reports `epsilonBudgetUsed = E / k` and
`percentBudgetUsed = 1 / k`. -/
theorem privatized_exactly_k_calls {DS : Type} (k : ℕ) (hk : 1 ≤ k) (E : ℚ)
    (hE : 0 < E) (conc : ℚ) (dbg : Bool) (producer : DS → SubsetIter DS)
    (f : DS → ℚ) (probDistFunc : DecE → ℚ → ℚ) (ds : List DS) (i : ℕ)
    (hi : i < ds.length) :
    let opts : FilledOptions :=
      { maxEpsilon := E, maxCallCount := (k : ℚ),
        maxConcurrentCalls := conc, debugDangerously := dbg }
    let outs := runCalls opts producer
      (fun x => (Except.ok (f x) : Except Empty ℚ)) probDistFunc 0 ds
    (i < k → ∃ r : PrivateResult,
      (outs.get? i).map Prod.snd = some (Except.ok r) ∧
      r.epsilonBudgetUsed = E / (k : ℚ) ∧ r.percentBudgetUsed = 1 / (k : ℚ)) ∧
    (k ≤ i →
      (outs.get? i).map Prod.snd = some (Except.error InvokeError.budgetExceeded)) := by
  intro opts outs
  have hget := runCalls_get? opts producer
    (fun x => (Except.ok (f x) : Except Empty ℚ)) probDistFunc ds 0 i
  obtain ⟨d, hd⟩ : ∃ d, ds.get? i = some d := ⟨_, List.get?_eq_get hi⟩
  rw [hd] at hget
  constructor
  · intro hik
    have hb : ¬ opts.maxEpsilon <
        0 + (i : ℚ) * perCallEpsilon opts + perCallEpsilon opts := by
      intro hcon
      have := (budget_check_iff E hE k hk i).mp hcon
      omega
    obtain ⟨r, hr, hr1, hr2⟩ := invokeOnce_pure_ok opts producer f probDistFunc
      (0 + (i : ℚ) * perCallEpsilon opts) d hb
    refine ⟨r, ?_, ?_, ?_⟩
    · rw [hget]
      exact congrArg some hr
    · rw [hr1]
      rfl
    · rw [hr2]
  · intro hki
    have hb : opts.maxEpsilon <
        0 + (i : ℚ) * perCallEpsilon opts + perCallEpsilon opts :=
      (budget_check_iff E hE k hk i).mpr (by omega)
    have h2 := invokeOnce_exceeded opts producer
      (fun x => (Except.ok (f x) : Except Empty ℚ)) probDistFunc
      (0 + (i : ℚ) * perCallEpsilon opts) d hb
    rw [hget]
    exact congrArg (fun p => some p.2) h2

/-- C1 witness: `maxCallCount = 2`, `maxEpsilon = 1`, three invocations —
the third call (index 2) raises the budget error. -/
theorem privatized_exactly_k_calls_witness :
    ((1 : ℕ) ≤ 2 ∧ (0 : ℚ) < 1 ∧ 2 < ([(), (), ()] : List Unit).length) ∧
    ((runCalls
        { maxEpsilon := 1, maxCallCount := ((2 : ℕ) : ℚ),
          maxConcurrentCalls := 4, debugDangerously := false }
        constUnitIter (fun _ => (Except.ok (0 : ℚ) : Except Empty ℚ))
        (fun _ _ => 0) 0 [(), (), ()]).get? 2).map Prod.snd =
      some (Except.error InvokeError.budgetExceeded) :=
  ⟨⟨by decide, by norm_num, by decide⟩,
   (privatized_exactly_k_calls 2 (by decide) 1 (by norm_num) 4 false
      constUnitIter (fun _ => 0) (fun _ _ => 0) [(), (), ()] 2 (by decide)).2
     (by decide)⟩

/-- C3: in every invocation the new counter value is exactly the old one plus
the fixed per-call epsilon (the debit happens unconditionally, whether the
call succeeds, exhausts the budget, or propagates a failure), so the counter
is monotonically non-decreasing; and in any sequence of calls on one handle,
once an invocation has raised `PrivacyBudgetExceeded` every later invocation
also raises it (the counter never resets). -/
theorem budget_counter_monotonic {DS ε : Type} (k : ℕ) (hk : 1 ≤ k) (E : ℚ)
    (hE : 0 < E) (conc : ℚ) (dbg : Bool) (producer : DS → SubsetIter DS)
    (func : DS → Except ε ℚ) (probDistFunc : DecE → ℚ → ℚ) (s : ℚ) (d : DS)
    (ds : List DS) (i j : ℕ) (hij : i ≤ j) (hj : j < ds.length) :
    let opts : FilledOptions :=
      { maxEpsilon := E, maxCallCount := (k : ℚ),
        maxConcurrentCalls := conc, debugDangerously := dbg }
    ((invokeOnce opts producer func probDistFunc s d).1 = s + perCallEpsilon opts ∧
     s ≤ (invokeOnce opts producer func probDistFunc s d).1) ∧
    (((runCalls opts producer func probDistFunc 0 ds).get? i).map Prod.snd =
        some (Except.error InvokeError.budgetExceeded) →
      ((runCalls opts producer func probDistFunc 0 ds).get? j).map Prod.snd =
        some (Except.error InvokeError.budgetExceeded)) := by
  intro opts
  have hk0 : (0 : ℚ) < (k : ℚ) := by
    exact_mod_cast Nat.lt_of_lt_of_le Nat.zero_lt_one hk
  have heps : 0 < perCallEpsilon opts := div_pos hE hk0
  refine ⟨⟨invokeOnce_fst opts producer func probDistFunc s d, ?_⟩, ?_⟩
  · rw [invokeOnce_fst]
    linarith
  · intro hi
    have hgeti := runCalls_get? opts producer func probDistFunc ds 0 i
    have hgetj := runCalls_get? opts producer func probDistFunc ds 0 j
    obtain ⟨di, hdi⟩ : ∃ x, ds.get? i = some x :=
      ⟨_, List.get?_eq_get (lt_of_le_of_lt hij hj)⟩
    obtain ⟨dj, hdj⟩ : ∃ x, ds.get? j = some x := ⟨_, List.get?_eq_get hj⟩
    rw [hgeti, hdi] at hi
    have hi2 : (invokeOnce opts producer func probDistFunc
        (0 + (i : ℚ) * perCallEpsilon opts) di).2 =
        Except.error InvokeError.budgetExceeded := by
      have := hi
      simpa using this
    have hex := (invokeOnce_exceeded_iff opts producer func probDistFunc
      (0 + (i : ℚ) * perCallEpsilon opts) di).mp hi2
    have hexj : opts.maxEpsilon <
        0 + (j : ℚ) * perCallEpsilon opts + perCallEpsilon opts := by
      have hij2 : (i : ℚ) ≤ (j : ℚ) := by exact_mod_cast hij
      have hmul : (i : ℚ) * perCallEpsilon opts ≤ (j : ℚ) * perCallEpsilon opts :=
        mul_le_mul_of_nonneg_right hij2 (le_of_lt heps)
      linarith
    have h2 := invokeOnce_exceeded opts producer func probDistFunc
      (0 + (j : ℚ) * perCallEpsilon opts) dj hexj
    rw [hgetj, hdj]
    exact congrArg (fun p => some p.2) h2

/-- C3 witness: with `maxEpsilon = 1` and `maxCallCount = 1`, call index 1
of two calls on the same handle is over budget, and so is the later call. -/
theorem budget_counter_monotonic_witness :
    ((1 : ℕ) ≤ 1 ∧ (0 : ℚ) < 1 ∧ (1 : ℕ) ≤ 1 ∧ 1 < ([(), ()] : List Unit).length) ∧
    ((invokeOnce
        { maxEpsilon := 1, maxCallCount := ((1 : ℕ) : ℚ),
          maxConcurrentCalls := 4, debugDangerously := false }
        constUnitIter (fun _ => (Except.ok (0 : ℚ) : Except Unit ℚ))
        (fun _ _ => 0) 5 ()).1 =
      5 + perCallEpsilon
        { maxEpsilon := 1, maxCallCount := ((1 : ℕ) : ℚ),
          maxConcurrentCalls := 4, debugDangerously := false }) :=
  ⟨⟨by decide, by norm_num, by decide, by decide⟩,
   ((budget_counter_monotonic 1 (by decide) 1 (by norm_num) 4 false
      constUnitIter (fun _ => (Except.ok (0 : ℚ) : Except Unit ℚ))
      (fun _ _ => 0) 5 () [(), ()] 1 1 (by decide) (by decide)).1).1⟩

/-- C9: when an invocation passes the budget check but the caller-supplied
sensitive function raises — during sensitivity estimation or during the final
evaluation on the original dataset — the failure propagates uncaught as
`propagated`, the epsilon already debited is not refunded (the new counter is
still `spent + perCallEpsilon`), and a subsequent invocation starts from the
cumulative spend including the failed call's debit. -/
theorem sensitive_failure_propagates {DS ε : Type} (opts : FilledOptions)
    (producer : DS → SubsetIter DS) (func : DS → Except ε ℚ)
    (probDistFunc : DecE → ℚ → ℚ) (s : ℚ) (d : DS) (e : ε)
    (hbudget : ¬ opts.maxEpsilon < s + perCallEpsilon opts)
    (hfail : calculateSensitivity func producer d opts.maxConcurrentCalls =
        Except.error e ∨
      (∃ sens, calculateSensitivity func producer d opts.maxConcurrentCalls =
          Except.ok sens ∧ func d = Except.error e)) :
    invokeOnce opts producer func probDistFunc s d =
      (s + perCallEpsilon opts, Except.error (InvokeError.propagated e)) ∧
    ∀ d2 : DS, (invokeOnce opts producer func probDistFunc
        (invokeOnce opts producer func probDistFunc s d).1 d2).1 =
      s + perCallEpsilon opts + perCallEpsilon opts := by
  constructor
  · simp only [invokeOnce, if_neg hbudget]
    rcases hfail with hcs | ⟨sens, hcs, hfd⟩
    · rw [hcs]
    · rw [hcs, hfd]
  · intro d2
    rw [invokeOnce_fst, invokeOnce_fst]

/-- C9 witness: a sensitive function that always rejects, under the trivial
one-shadow iterator; the invocation propagates the failure and keeps the
debit. -/
theorem sensitive_failure_witness :
    (¬ (⟨1, 1, 4, false⟩ : FilledOptions).maxEpsilon <
        0 + perCallEpsilon ⟨1, 1, 4, false⟩) ∧
    calculateSensitivity (fun _ => (Except.error () : Except Unit ℚ)) constUnitIter ()
        (⟨1, 1, 4, false⟩ : FilledOptions).maxConcurrentCalls = Except.error () ∧
    invokeOnce (⟨1, 1, 4, false⟩ : FilledOptions) constUnitIter
        (fun _ => (Except.error () : Except Unit ℚ)) (fun _ _ => 0) 0 () =
      (0 + perCallEpsilon ⟨1, 1, 4, false⟩,
       Except.error (InvokeError.propagated ())) := by
  have hb : ¬ (⟨1, 1, 4, false⟩ : FilledOptions).maxEpsilon <
      0 + perCallEpsilon ⟨1, 1, 4, false⟩ := by
    norm_num [perCallEpsilon]
  have hcs : calculateSensitivity (fun _ => (Except.error () : Except Unit ℚ))
      constUnitIter () (⟨1, 1, 4, false⟩ : FilledOptions).maxConcurrentCalls =
      Except.error () := by
    decide
  exact ⟨hb, hcs,
    (sensitive_failure_propagates ⟨1, 1, 4, false⟩ constUnitIter
      (fun _ => (Except.error () : Except Unit ℚ)) (fun _ _ => 0) 0 () () hb
      (Or.inl hcs)).1⟩
